import Mathlib

/-!
Shallow embedding of the ProductCodeOCR pipeline (src/app.py) in Lean 4,
with theorems settling the specification claims about extraction,
reconciliation, cropping and aggregation.
-/

namespace ProductCodeOCR

/-- Embeds `IMAGE_CROP_SIZE = 3` (src/app.py line 21). -/
def IMAGE_CROP_SIZE : Nat := 3

/-- Embeds the crop box `(0, 0, width, height // IMAGE_CROP_SIZE)` passed to
`image.crop` in both adapters (src/app.py lines 70 and 115); the components
are PIL's (left, upper, right, lower). -/
def cropBox (width height : Nat) : Nat × Nat × Nat × Nat :=
  (0, 0, width, height / IMAGE_CROP_SIZE)

/-- Width of a PIL crop box: right minus left. -/
def cropWidth (width height : Nat) : Nat :=
  (cropBox width height).2.2.1 - (cropBox width height).1

/-- Height of a PIL crop box: lower minus upper. -/
def cropHeight (width height : Nat) : Nat :=
  (cropBox width height).2.2.2 - (cropBox width height).2.1

/-- Embeds the regex character class `[A-Z0-9]`: an uppercase Latin letter or
an ASCII digit. -/
def isCodeChar (c : Char) : Bool :=
  (decide ('A' ≤ c) && decide (c ≤ 'Z')) || (decide ('0' ≤ c) && decide (c ≤ '9'))

/-- Embeds a match of the anchored pattern `[A-Z0-9]{5}` at the head of a
character list: the list has at least five characters and its first five all
lie in the class. This is the success condition of
`re.match(r'[A-Z0-9]{5}', text)` restricted to position 0 (the caret anchor
in src/app.py lines 90 and 100 is redundant for `re.match`). -/
def run5At (cs : List Char) : Bool :=
  decide (5 ≤ cs.length) && (cs.take 5).all isCodeChar

/-- Embeds the new-API result loop of `process_image_paddle`
(src/app.py lines 88-91): scan `rec_texts` in order; on the first text that
is non-empty and matches the anchored pattern return its first five
characters (`text[:5]`), otherwise fall through and return the empty
string. -/
def recTextsScan : List String → String
  | [] => ""
  | t :: ts =>
    if t ≠ "" ∧ run5At t.data then String.mk (t.data.take 5) else recTextsScan ts

/-- Embeds the inner line loop of the legacy-API branch of
`process_image_paddle` (src/app.py lines 94-101), with each line represented
by its recognized text `line[1][0]`: the first matching text yields
`text[:5]`. -/
def oldLinesScan : List String → Option String
  | [] => none
  | t :: ts =>
    if run5At t.data then some (String.mk (t.data.take 5)) else oldLinesScan ts

/-- Embeds the outer loop of the legacy-API branch of `process_image_paddle`
(src/app.py lines 94-103): nested per-image line lists are scanned in order
and the function returns the empty string when no line matches. -/
def oldFormatScan : List (List String) → String
  | [] => ""
  | img :: rest =>
    match oldLinesScan img with
    | some s => s
    | none => oldFormatScan rest

/-- Embeds `re.search(r'[A-Z0-9]{5}', result_text)` in `process_image_gemini`
(src/app.py lines 162-164): the leftmost position at which five consecutive
characters from the class occur; `match.group()` is those five characters. -/
def searchRun5 : List Char → Option String
  | [] => none
  | c :: cs =>
    if run5At (c :: cs) then some (String.mk ((c :: cs).take 5)) else searchRun5 cs

/-- Embeds Python `str.strip()` applied to the Gemini response text
(src/app.py line 156): removes leading and trailing whitespace. -/
def pyStrip (s : String) : String :=
  String.mk (((s.data.dropWhile Char.isWhitespace).reverse.dropWhile
    Char.isWhitespace).reverse)

/-- Shapes of the value returned by the PaddleOCR backend, as distinguished
by `process_image_paddle` (src/app.py lines 85-103): a non-empty list whose
first element is a dict carrying `rec_texts`, a non-empty nested legacy list
(each line represented by its recognized text `line[1][0]`), or anything
else (empty list or non-list), which falls through to the empty string. -/
inductive PaddleResult : Type
  | newFormat (rec_texts : List String)
  | oldFormat (images : List (List String))
  | empty

/-- Embeds the result processing of `process_image_paddle`
(src/app.py lines 85-103). -/
def paddleProcessResult : PaddleResult → String
  | .newFormat ts => recTextsScan ts
  | .oldFormat imgs => oldFormatScan imgs
  | .empty => ""

/-- Outcome of one call into the PaddleOCR library: a returned value, a
raised AttributeError (the only exception class src/app.py lines 76-81
catches), or any other raised exception (network error, timeout, quota,
generic failure). -/
inductive CallOutcome (α : Type) : Type
  | ok (v : α)
  | attrError
  | exc

/-- The PaddleOCR backend as the adapter consumes it: `predict` (new API)
and `ocr` (legacy API), each a function of the cropped region passed as
`img_arr` and each able to return a value or raise. -/
structure PaddleBackend : Type where
  predict : Nat × Nat × Nat × Nat → CallOutcome PaddleResult
  ocrLegacy : Nat × Nat × Nat × Nat → CallOutcome PaddleResult

/-- Embeds `process_image_paddle` (src/app.py lines 59-103) for an image of
the given width and height: crop the top third, call `ocr.predict` on it,
fall back to `ocr.ocr` only when `predict` raised AttributeError, and
process the result. Any other raised exception, from either call, is not
caught and propagates to the caller, embedded as `Except.error ()`. -/
def process_image_paddle (b : PaddleBackend) (width height : Nat) :
    Except Unit String :=
  match b.predict (cropBox width height) with
  | .ok r => .ok (paddleProcessResult r)
  | .attrError =>
    match b.ocrLegacy (cropBox width height) with
    | .ok r => .ok (paddleProcessResult r)
    | .attrError => .error ()
    | .exc => .error ()
  | .exc => .error ()

/-- Shapes of a Gemini API response, as distinguished by
`process_image_gemini` (src/app.py lines 134-156): no candidates, a first
candidate without content or parts, a first part without a (non-empty) text
attribute, or a first part carrying text. -/
inductive GeminiResponse : Type
  | noCandidates
  | noParts
  | noText
  | text (s : String)

/-- Embeds the response processing of `process_image_gemini`
(src/app.py lines 134-166): the defective response shapes yield the empty
string; otherwise the text is stripped, an empty remainder yields the empty
string, and otherwise the first 5-character run of the class anywhere in the
text is returned, or the empty string when none exists. -/
def geminiProcessResponse : GeminiResponse → String
  | .noCandidates => ""
  | .noParts => ""
  | .noText => ""
  | .text s =>
    let t := pyStrip s
    if t = "" then ""
    else
      match searchRun5 t.data with
      | some code => code
      | none => ""

/-- Outcome of one `model.generate_content` call: a response, or any raised
exception (the `except Exception` in src/app.py lines 167-174 covers quota
errors and everything else alike). -/
inductive GeminiCall : Type
  | ok (r : GeminiResponse)
  | exc

/-- The Gemini backend as the adapter consumes it: one generate call taking
the cropped region. -/
structure GeminiBackend : Type where
  generate : Nat × Nat × Nat × Nat → GeminiCall

/-- Embeds `get_gemini_model` (src/app.py lines 48-57): with no
GEMINI_API_KEY in the environment (or an empty one, which is falsy in
Python) no model is configured and None is returned. -/
def get_gemini_model (apiKey : Option String) : Option Unit :=
  match apiKey with
  | none => none
  | some k => if k = "" then none else some ()

/-- Embeds `process_image_gemini` (src/app.py lines 105-174) for an image of
the given width and height. The returned Bool records whether a backend call
was attempted. With no configured model the function returns the empty
string at once without calling the backend; otherwise the top third is
cropped and sent, every exception from the call resolves to the empty
string, and a response is processed by `geminiProcessResponse`. No path
propagates a backend fault, hence the Except value is always `ok`. -/
def process_image_gemini (apiKey : Option String) (b : GeminiBackend)
    (width height : Nat) : Except Unit String × Bool :=
  match get_gemini_model apiKey with
  | none => (.ok "", false)
  | some _ =>
    match b.generate (cropBox width height) with
    | .ok r => (.ok (geminiProcessResponse r), true)
    | .exc => (.ok "", true)

/-- Embeds the reconciliation decision of `process_image_with_both_ocr`
(src/app.py lines 183-198) on the two adapter results, with the empty string
standing for an absent code exactly as in the Python truthiness tests:
agreement returns the common value; if exactly one result is non-empty it is
returned; otherwise (both non-empty and different) the PaddleOCR result is
returned. -/
def reconcile (a b : String) : String :=
  if a = b then a
  else if a ≠ "" ∧ b = "" then a
  else if b ≠ "" ∧ a = "" then b
  else a

/-- Embeds `process_image_with_both_ocr` (src/app.py lines 176-198): run the
PaddleOCR adapter, run the Gemini adapter, and reconcile the two results. An
uncaught exception from the PaddleOCR adapter propagates. -/
def process_image_with_both_ocr (apiKey : Option String) (pb : PaddleBackend)
    (gb : GeminiBackend) (width height : Nat) : Except Unit String :=
  match process_image_paddle pb width height with
  | .error e => .error e
  | .ok p =>
    match (process_image_gemini apiKey gb width height).1 with
    | .error e => .error e
    | .ok g => .ok (reconcile p g)

/-- Embeds the per-result aggregation of the `__main__` loop
(src/app.py lines 257-265): linear scan of the results list for a record
with the same assortment number and model number; the first such record has
its quantity incremented in place, and when none exists a new record with
quantity 1 is appended at the end. -/
def addResult : List (String × String × Nat) → String → String →
    List (String × String × Nat)
  | [], a, m => [(a, m, 1)]
  | r :: rs, a, m =>
    if r.1 = a ∧ r.2.1 = m then (r.1, r.2.1, r.2.2 + 1) :: rs
    else r :: addResult rs a m

/-- Embeds one observation by the aggregator: the guard `if result:`
(src/app.py line 252) makes an absent (empty) code a no-op, and otherwise
the result is recorded by `addResult`. -/
def observe (recs : List (String × String × Nat)) (assortment model : String) :
    List (String × String × Nat) :=
  if model = "" then recs else addResult recs assortment model

/-- One iteration of the directory-processing loop of `__main__`
(src/app.py lines 248-265): the image is processed by both adapters and the
reconciled result is observed into the results list; an uncaught exception
from an adapter aborts the run, embedded as `Except.error`. -/
def pipelineStep (apiKey : Option String) (dirLabel : String)
    (acc : Except Unit (List (String × String × Nat)))
    (img : PaddleBackend × GeminiBackend × Nat × Nat) :
    Except Unit (List (String × String × Nat)) :=
  match acc with
  | .error e => .error e
  | .ok recs =>
    match process_image_with_both_ocr apiKey img.1 img.2.1
        img.2.2.1 img.2.2.2 with
    | .error e => .error e
    | .ok code => .ok (observe recs dirLabel code)

/-- Embeds the directory-processing loop of `__main__`
(src/app.py lines 245-265): images in order, each processed by
`pipelineStep` starting from an empty results list. Each image is
represented by the behaviors of the two backends on it together with its
width and height. -/
def runPipeline (apiKey : Option String) (dirLabel : String)
    (images : List (PaddleBackend × GeminiBackend × Nat × Nat)) :
    Except Unit (List (String × String × Nat)) :=
  images.foldl (pipelineStep apiKey dirLabel) (.ok [])

/-- One iteration of a loop that consults only the PaddleOCR adapter, for
comparison with a run whose Gemini credential is missing. -/
def paddleOnlyStep (dirLabel : String)
    (acc : Except Unit (List (String × String × Nat)))
    (img : PaddleBackend × GeminiBackend × Nat × Nat) :
    Except Unit (List (String × String × Nat)) :=
  match acc with
  | .error e => .error e
  | .ok recs =>
    match process_image_paddle img.1 img.2.2.1 img.2.2.2 with
    | .error e => .error e
    | .ok code => .ok (observe recs dirLabel code)

/-- Variant of the directory-processing loop that consults only the
PaddleOCR adapter. -/
def runPipelinePaddleOnly (dirLabel : String)
    (images : List (PaddleBackend × GeminiBackend × Nat × Nat)) :
    Except Unit (List (String × String × Nat)) :=
  images.foldl (paddleOnlyStep dirLabel) (.ok [])

/-- C1: for every pair of extraction results, reconciliation returns the
common value on agreement (both absent yields absent), the present one when
exactly one is present, and engine A's code when both are present and
differ. -/
theorem C1_reconcile_decision_table (a b : String) :
    (a = b → reconcile a b = a) ∧
    (a ≠ "" → b = "" → reconcile a b = a) ∧
    (a = "" → b ≠ "" → reconcile a b = b) ∧
    (a ≠ "" → b ≠ "" → a ≠ b → reconcile a b = a) := by
  refine ⟨fun hab => by simp [reconcile, hab], ?_, ?_, ?_⟩
  · intro ha hb
    by_cases hab : a = b
    · simp [reconcile, hab]
    · simp [reconcile, hab, ha, hb]
  · intro ha hb
    by_cases hab : a = b
    · simp [reconcile, hab, ha.symm]
    · simp [reconcile, hab, ha, hb]
  · intro ha hb hab
    simp [reconcile, hab, ha, hb]

/-- Witness for C1 at concrete inputs: agreement, one-present (each side),
and the disagreement tie-break. -/
theorem C1_reconcile_decision_table_witness :
    reconcile "AB12C" "XYZ09" = "AB12C" :=
  (C1_reconcile_decision_table "AB12C" "XYZ09").2.2.2
    (by decide) (by decide) (by decide)

/-- C6: reconcile is symmetric exactly when the two candidates agree or
exactly one is absent; when both are present and differ it is asymmetric,
returning the first argument in each orientation. -/
theorem C6_reconcile_symmetry (a b : String) :
    (reconcile a b = reconcile b a ↔
      (a = b ∨ (a = "" ∧ b ≠ "") ∨ (b = "" ∧ a ≠ ""))) ∧
    (a ≠ "" → b ≠ "" → a ≠ b →
      reconcile a b = a ∧ reconcile b a = b) := by
  have hmain : ∀ x y : String, x ≠ "" → y = "" →
      reconcile x y = x ∧ reconcile y x = x := by
    intro x y hx hy
    subst hy
    exact ⟨by simp [reconcile, hx], by simp [reconcile, Ne.symm hx, hx]⟩
  constructor
  · by_cases hab : a = b
    · simp [hab]
    · by_cases ha : a = ""
      · have hb : b ≠ "" := fun hb => hab (ha.trans hb.symm)
        have h := hmain b a hb ha
        rw [h.1, h.2]
        simp [ha, hb]
      · by_cases hb : b = ""
        · have h := hmain a b ha hb
          rw [h.1, h.2]
          simp [ha, hb]
        · have h1 : reconcile a b = a := by simp [reconcile, hab, ha, hb]
          have h2 : reconcile b a = b := by simp [reconcile, Ne.symm hab, ha, hb]
          rw [h1, h2]
          simp [hab, ha, hb]
  · intro ha hb hab
    exact ⟨by simp [reconcile, hab, ha, hb],
           by simp [reconcile, Ne.symm hab, ha, hb]⟩

/-- Witness for C6 at concrete inputs: with both candidates present and
different, the two orientations return their respective first arguments and
are not equal. -/
theorem C6_reconcile_symmetry_witness :
    reconcile "AAAAA" "BBBBB" = "AAAAA" ∧ reconcile "BBBBB" "AAAAA" = "BBBBB" :=
  (C6_reconcile_symmetry "AAAAA" "BBBBB").2 (by decide) (by decide) (by decide)

/-- C10: the reconciled value is always one of the two inputs, and it is
absent only when at least one input is absent. -/
theorem C10_reconcile_no_fabrication (a b : String) :
    (reconcile a b = a ∨ reconcile a b = b) ∧
    (reconcile a b = "" → a = "" ∨ b = "") := by
  constructor
  · unfold reconcile
    split
    · exact Or.inl rfl
    · split
      · exact Or.inl rfl
      · split
        · exact Or.inr rfl
        · exact Or.inl rfl
  · intro h
    unfold reconcile at h
    by_cases hab : a = b
    · simp [hab] at h
      exact Or.inr h
    · by_cases ha : a = ""
      · exact Or.inl ha
      · by_cases hb : b = ""
        · exact Or.inr hb
        · simp [hab, ha, hb] at h

/-- Witness for C10 at a concrete input where the implication's premise
holds: both inputs absent, reconciled value absent. -/
theorem C10_reconcile_no_fabrication_witness :
    reconcile "" "" = "" ∨ "" = "" ∨ ("" : String) = "" :=
  Or.inr ((C10_reconcile_no_fabrication "" "").2 (by decide))

/-- Helper: a successful anchored match yields five characters all in the
class. -/
theorem run5At_take {cs : List Char} (h : run5At cs = true) :
    (cs.take 5).length = 5 ∧ (cs.take 5).all isCodeChar = true := by
  unfold run5At at h
  rw [Bool.and_eq_true, decide_eq_true_eq] at h
  refine ⟨?_, h.2⟩
  rw [List.length_take]
  omega

/-- Helper: the new-format scan returns the empty string or a valid
5-character code. -/
theorem recTextsScan_valid (ts : List String) :
    recTextsScan ts = "" ∨
      ((recTextsScan ts).length = 5 ∧
        (recTextsScan ts).data.all isCodeChar = true) := by
  induction ts with
  | nil => exact Or.inl rfl
  | cons t ts ih =>
    by_cases h : t ≠ "" ∧ run5At t.data
    · right
      have hv := run5At_take h.2
      unfold recTextsScan
      rw [if_pos h]
      exact ⟨hv.1, hv.2⟩
    · unfold recTextsScan
      rw [if_neg h]
      exact ih

/-- Helper: the legacy line scan returns only valid 5-character codes. -/
theorem oldLinesScan_valid : ∀ (ts : List String) (code : String),
    oldLinesScan ts = some code →
    code.length = 5 ∧ code.data.all isCodeChar = true := by
  intro ts
  induction ts with
  | nil => intro code h; exact absurd h (by simp [oldLinesScan])
  | cons t ts ih =>
    intro code h
    unfold oldLinesScan at h
    by_cases hr : run5At t.data = true
    · rw [if_pos hr, Option.some_inj] at h
      have hv := run5At_take hr
      exact h ▸ ⟨hv.1, hv.2⟩
    · rw [if_neg hr] at h
      exact ih code h

/-- Helper: the legacy-format scan returns the empty string or a valid
5-character code. -/
theorem oldFormatScan_valid (imgs : List (List String)) :
    oldFormatScan imgs = "" ∨
      ((oldFormatScan imgs).length = 5 ∧
        (oldFormatScan imgs).data.all isCodeChar = true) := by
  induction imgs with
  | nil => exact Or.inl rfl
  | cons img rest ih =>
    unfold oldFormatScan
    cases hs : oldLinesScan img with
    | none => exact ih
    | some s => exact Or.inr (oldLinesScan_valid img s hs)

/-- Helper: an unanchored search returns only valid 5-character codes. -/
theorem searchRun5_valid : ∀ (cs : List Char) (code : String),
    searchRun5 cs = some code →
    code.length = 5 ∧ code.data.all isCodeChar = true := by
  intro cs
  induction cs with
  | nil => intro code h; exact absurd h (by simp [searchRun5])
  | cons c cs ih =>
    intro code h
    unfold searchRun5 at h
    by_cases hr : run5At (c :: cs) = true
    · rw [if_pos hr, Option.some_inj] at h
      have hv := run5At_take hr
      exact h ▸ ⟨hv.1, hv.2⟩
    · rw [if_neg hr] at h
      exact ih code h

/-- Helper: unfolding equation of the Gemini response processing on a
text-carrying response. -/
theorem geminiProcessResponse_text (s : String) :
    geminiProcessResponse (.text s) =
      (if pyStrip s = "" then ""
       else
         match searchRun5 (pyStrip s).data with
         | some code => code
         | none => "") := rfl

/-- Helper: Gemini response processing returns the empty string or a valid
5-character code. -/
theorem geminiProcessResponse_valid (g : GeminiResponse) :
    geminiProcessResponse g = "" ∨
      ((geminiProcessResponse g).length = 5 ∧
        (geminiProcessResponse g).data.all isCodeChar = true) := by
  cases g with
  | noCandidates => exact Or.inl rfl
  | noParts => exact Or.inl rfl
  | noText => exact Or.inl rfl
  | text s =>
    rw [geminiProcessResponse_text]
    by_cases ht : pyStrip s = ""
    · rw [if_pos ht]
      exact Or.inl rfl
    · rw [if_neg ht]
      cases hs : searchRun5 (pyStrip s).data with
      | none => exact Or.inl rfl
      | some code => exact Or.inr (searchRun5_valid (pyStrip s).data code hs)

/-- Helper: the new-format scan yields the empty string when no text
qualifies. -/
theorem recTextsScan_none : ∀ (ts : List String),
    (∀ t ∈ ts, ¬(t ≠ "" ∧ run5At t.data = true)) → recTextsScan ts = "" := by
  intro ts
  induction ts with
  | nil => intro _; rfl
  | cons t ts ih =>
    intro hall
    unfold recTextsScan
    rw [if_neg (hall t (List.mem_cons_self t ts))]
    exact ih (fun x hx => hall x (List.mem_cons_of_mem t hx))

/-- Helper: the unanchored search yields nothing when no suffix of the text
starts with a qualifying run. -/
theorem searchRun5_none : ∀ (cs : List Char),
    (∀ rest ∈ cs.tails, run5At rest = false) → searchRun5 cs = none := by
  intro cs
  induction cs with
  | nil => intro _; rfl
  | cons c cs ih =>
    intro hall
    have h0 : run5At (c :: cs) = false :=
      hall (c :: cs) (by rw [List.tails_cons]; exact List.mem_cons_self _ _)
    unfold searchRun5
    rw [if_neg (by simp [h0])]
    exact ih (fun rest hr =>
      hall rest (by rw [List.tails_cons]; exact List.mem_cons_of_mem _ hr))

/-- C2: any non-empty code produced by either adapter's result processing is
exactly five characters from the class A-Z, 0-9 — never a partially valid
code — and a backend text with no qualifying run yields the empty string:
the new-format scan when no text qualifies at its start, and the Gemini
search when no suffix of the stripped text starts with a qualifying run. -/
theorem C2_code_alphabet_invariant (r : PaddleResult) (g : GeminiResponse)
    (ts : List String) (s : String) :
    (paddleProcessResult r = "" ∨
      ((paddleProcessResult r).length = 5 ∧
        (paddleProcessResult r).data.all isCodeChar = true)) ∧
    (geminiProcessResponse g = "" ∨
      ((geminiProcessResponse g).length = 5 ∧
        (geminiProcessResponse g).data.all isCodeChar = true)) ∧
    ((∀ t ∈ ts, ¬(t ≠ "" ∧ run5At t.data = true)) → recTextsScan ts = "") ∧
    ((∀ rest ∈ (pyStrip s).data.tails, run5At rest = false) →
      geminiProcessResponse (.text s) = "") := by
  refine ⟨?_, geminiProcessResponse_valid g, recTextsScan_none ts, ?_⟩
  · cases r with
    | newFormat ts => exact recTextsScan_valid ts
    | oldFormat imgs => exact oldFormatScan_valid imgs
    | empty => exact Or.inl rfl
  · intro hall
    rw [geminiProcessResponse_text]
    by_cases ht : pyStrip s = ""
    · rw [if_pos ht]
    · rw [if_neg ht, searchRun5_none (pyStrip s).data hall]

/-- Witness for C2 at concrete inputs: a response carrying a valid code and
texts carrying no qualifying run. -/
theorem C2_code_alphabet_invariant_witness :
    (paddleProcessResult (.newFormat ["AB12C"]) = "" ∨
      ((paddleProcessResult (.newFormat ["AB12C"])).length = 5 ∧
        (paddleProcessResult (.newFormat ["AB12C"])).data.all isCodeChar
          = true)) ∧
    recTextsScan ["ab", "code"] = "" ∧
    geminiProcessResponse (.text "no code here") = "" := by
  have h := C2_code_alphabet_invariant (.newFormat ["AB12C"])
    (.text "no code here") ["ab", "code"] "no code here"
  exact ⟨h.1, h.2.2.1 (by decide), h.2.2.2 (by decide)⟩

/-- C3 as stated is false: the text AB12Xyz does yield a code. The anchored
match in the PaddleOCR branch and the unanchored search in the Gemini branch
both accept the five leading characters AB12X (all in A-Z, 0-9) without
requiring the run to be followed by a character outside the class, so the
trailing lowercase yz does not disqualify the match. -/
theorem C3_mixed_case_counterexample :
    recTextsScan ["AB12Xyz"] = "AB12X" ∧
    ("AB12X" : String) ≠ "" := by
  exact ⟨rfl, by decide⟩

/-- C3 amended: the text AB12Xyz yields the code AB12X from every extraction
path — the new-format and legacy PaddleOCR scans and the Gemini search —
because the regexes demand only five consecutive class characters, not a
boundary after them. -/
theorem C3_mixed_case_amended :
    recTextsScan ["AB12Xyz"] = "AB12X" ∧
    oldFormatScan [["AB12Xyz"]] = "AB12X" ∧
    geminiProcessResponse (.text "AB12Xyz") = "AB12X" := by
  refine ⟨rfl, rfl, ?_⟩
  decide

/-- C8: the selected region spans the full width and the top third of the
rows (integer division), and for a 300 by 900 image it measures 300 by
300. -/
theorem C8_crop_region (width height : Nat) (hw : 1 ≤ width)
    (hh : 1 ≤ height) :
    cropWidth width height = width ∧
    cropHeight width height = height / 3 ∧
    cropWidth 300 900 = 300 ∧ cropHeight 300 900 = 300 := by
  refine ⟨?_, ?_, by decide, by decide⟩
  · simp [cropWidth, cropBox]
  · simp [cropHeight, cropBox, IMAGE_CROP_SIZE]

/-- Witness for C8 at the concrete 300 by 900 image. -/
theorem C8_crop_region_witness :
    cropWidth 300 900 = 300 ∧
    cropHeight 300 900 = 900 / 3 ∧
    cropWidth 300 900 = 300 ∧ cropHeight 300 900 = 300 :=
  C8_crop_region 300 900 (by decide) (by decide)

/-- C4 as stated is false: a PaddleOCR backend call that raises an exception
other than AttributeError (for instance a generic runtime failure during
prediction) is caught nowhere in `process_image_paddle`, so the fault
propagates to the caller instead of resolving to the absent result. -/
theorem C4_fault_containment_counterexample :
    process_image_paddle
      { predict := fun _ => .exc, ocrLegacy := fun _ => .ok .empty }
      100 100 = .error () := rfl

/-- C4 amended: the Gemini adapter never propagates a fault — for every
credential and backend behavior it returns normally, and a backend exception
resolves to the empty string; the PaddleOCR adapter catches only
AttributeError from the new-API call, retrying with the legacy call, and
propagates any other exception raised by either call. -/
theorem C4_fault_containment_amended (apiKey : Option String)
    (gb : GeminiBackend) (pb : PaddleBackend) (width height : Nat) :
    (∃ s, (process_image_gemini apiKey gb width height).1 = .ok s) ∧
    (gb.generate (cropBox width height) = .exc →
      (process_image_gemini apiKey gb width height).1 = .ok "") ∧
    (pb.predict (cropBox width height) = .exc →
      process_image_paddle pb width height = .error ()) ∧
    (∀ r, pb.predict (cropBox width height) = .attrError →
      pb.ocrLegacy (cropBox width height) = .ok r →
      process_image_paddle pb width height = .ok (paddleProcessResult r)) ∧
    (pb.predict (cropBox width height) = .attrError →
      pb.ocrLegacy (cropBox width height) = .exc →
      process_image_paddle pb width height = .error ()) := by
  refine ⟨?_, ?_, ?_, ?_, ?_⟩
  · unfold process_image_gemini
    cases get_gemini_model apiKey with
    | none => exact ⟨"", rfl⟩
    | some u =>
      cases gb.generate (cropBox width height) with
      | ok r => exact ⟨geminiProcessResponse r, rfl⟩
      | exc => exact ⟨"", rfl⟩
  · intro h
    unfold process_image_gemini
    cases get_gemini_model apiKey with
    | none => rfl
    | some u => rw [h]
  · intro h
    unfold process_image_paddle
    rw [h]
  · intro r h1 h2
    unfold process_image_paddle
    rw [h1, h2]
  · intro h1 h2
    unfold process_image_paddle
    rw [h1, h2]

/-- Witness for C4 amended at concrete inputs: a Gemini backend whose call
raises, and a PaddleOCR backend whose new-API call raises AttributeError
while the legacy call succeeds with no recognized text. -/
theorem C4_fault_containment_amended_witness :
    (∃ s, (process_image_gemini (some "k")
      { generate := fun _ => .exc } 10 30).1 = .ok s) ∧
    ((process_image_gemini (some "k")
      { generate := fun _ => .exc } 10 30).1 = .ok "") ∧
    (process_image_paddle
      { predict := fun _ => .attrError, ocrLegacy := fun _ => .ok .empty }
      10 30 = .ok (paddleProcessResult .empty)) := by
  have h := C4_fault_containment_amended (some "k")
    { generate := fun _ => .exc }
    { predict := fun _ => .attrError, ocrLegacy := fun _ => .ok .empty }
    10 30
  exact ⟨h.1, h.2.1 rfl, h.2.2.2.1 .empty rfl rfl⟩

/-- C9 as stated is false: a source image of height 2 produces a zero-height
crop, yet the PaddleOCR adapter applies no special handling to the
degenerate region — with a backend that reports the text ABCDE for it, the
adapter returns the code ABCDE, not the absent result. -/
theorem C9_degenerate_crop_counterexample :
    cropHeight 300 2 = 0 ∧
    process_image_paddle
      { predict := fun _ => .ok (.newFormat ["ABCDE"]),
        ocrLegacy := fun _ => .ok .empty } 300 2 = .ok "ABCDE" ∧
    ("ABCDE" : String) ≠ "" := by
  refine ⟨rfl, ?_, by decide⟩
  show Except.ok (recTextsScan ["ABCDE"]) = Except.ok "ABCDE"
  exact congrArg Except.ok (by decide)

/-- C9 amended: the adapters never inspect the crop dimensions, so a
degenerate (zero-height) crop gets the ordinary treatment: the zero-height
region is handed to the backends and their responses are processed as
usual — the Gemini adapter always returns normally (empty string on a
backend exception), while the PaddleOCR adapter returns the processed
response on success and propagates a non-AttributeError exception. A
degenerate crop therefore does not automatically yield the absent
result. -/
theorem C9_degenerate_crop_amended (width height : Nat) (hh : height < 3)
    (apiKey : Option String) (gb : GeminiBackend) (pb : PaddleBackend) :
    cropHeight width height = 0 ∧
    (∃ s, (process_image_gemini apiKey gb width height).1 = .ok s) ∧
    (gb.generate (cropBox width height) = .exc →
      (process_image_gemini apiKey gb width height).1 = .ok "") ∧
    (∀ r, pb.predict (cropBox width height) = .ok r →
      process_image_paddle pb width height = .ok (paddleProcessResult r)) ∧
    (pb.predict (cropBox width height) = .exc →
      process_image_paddle pb width height = .error ()) := by
  refine ⟨?_, ?_, ?_, ?_, ?_⟩
  · unfold cropHeight cropBox IMAGE_CROP_SIZE
    simp [Nat.div_eq_of_lt hh]
  · unfold process_image_gemini
    cases get_gemini_model apiKey with
    | none => exact ⟨"", rfl⟩
    | some u =>
      cases gb.generate (cropBox width height) with
      | ok r => exact ⟨geminiProcessResponse r, rfl⟩
      | exc => exact ⟨"", rfl⟩
  · intro h
    unfold process_image_gemini
    cases get_gemini_model apiKey with
    | none => rfl
    | some u => rw [h]
  · intro r h
    unfold process_image_paddle
    rw [h]
  · intro h
    unfold process_image_paddle
    rw [h]

/-- Witness for C9 amended at a concrete degenerate image: height 1, a
PaddleOCR backend reporting the text ZZ999 on the empty crop, a Gemini
backend whose call raises. -/
theorem C9_degenerate_crop_amended_witness :
    cropHeight 40 1 = 0 ∧
    process_image_paddle
      { predict := fun _ => .ok (.newFormat ["ZZ999"]),
        ocrLegacy := fun _ => .ok .empty } 40 1 =
      .ok (paddleProcessResult (.newFormat ["ZZ999"])) ∧
    (process_image_gemini none
      { generate := fun _ => .exc } 40 1).1 = .ok "" := by
  have h := C9_degenerate_crop_amended 40 1 (by decide) none
    { generate := fun _ => .exc }
    { predict := fun _ => .ok (.newFormat ["ZZ999"]),
      ocrLegacy := fun _ => .ok .empty }
  exact ⟨h.1, h.2.2.2.1 (.newFormat ["ZZ999"]) rfl, h.2.2.1 rfl⟩

/-- Helper: reconciling any candidate with the absent result returns the
candidate. -/
theorem reconcile_empty_right (p : String) : reconcile p "" = p := by
  by_cases hp : p = ""
  · simp [reconcile, hp]
  · simp [reconcile, hp]

/-- Helper: with no credential, processing an image with both adapters is
exactly the PaddleOCR adapter alone — the Gemini adapter contributes the
empty string without being consulted. -/
theorem both_ocr_no_key (pb : PaddleBackend) (gb : GeminiBackend)
    (w h : Nat) :
    process_image_with_both_ocr none pb gb w h =
      process_image_paddle pb w h := by
  unfold process_image_with_both_ocr
  cases hp : process_image_paddle pb w h with
  | error e => rfl
  | ok p =>
    show Except.ok (reconcile p "") = Except.ok p
    rw [reconcile_empty_right]

/-- Helper: with no credential, the per-image pipeline step coincides with
the PaddleOCR-only step. -/
theorem pipelineStep_no_key (dirLabel : String) :
    pipelineStep none dirLabel = paddleOnlyStep dirLabel := by
  funext acc img
  unfold pipelineStep paddleOnlyStep
  rw [both_ocr_no_key]

/-- Helper: a PaddleOCR-only fold over images whose paddle calls all return
normally never aborts. -/
theorem paddleOnly_fold_ok (dirLabel : String) :
    ∀ (l : List (PaddleBackend × GeminiBackend × Nat × Nat))
      (recs : List (String × String × Nat)),
      (∀ img ∈ l, ∃ s,
        process_image_paddle img.1 img.2.2.1 img.2.2.2 = .ok s) →
      ∃ out, l.foldl (paddleOnlyStep dirLabel) (.ok recs) = .ok out := by
  intro l
  induction l with
  | nil => exact fun recs _ => ⟨recs, rfl⟩
  | cons x xs ih =>
    intro recs hall
    obtain ⟨s, hs⟩ := hall x (List.mem_cons_self x xs)
    rw [List.foldl_cons]
    have hstep : paddleOnlyStep dirLabel (.ok recs) x =
        .ok (observe recs dirLabel s) := by
      unfold paddleOnlyStep
      rw [hs]
    rw [hstep]
    exact ih (observe recs dirLabel s)
      (fun img hm => hall img (List.mem_cons_of_mem x hm))

/-- C7: with no GEMINI_API_KEY in the environment the Gemini adapter returns
the absent result immediately for every image without attempting a backend
call; the whole directory run equals the PaddleOCR-only run, and it
completes normally whenever the PaddleOCR calls themselves return. -/
theorem C7_missing_credential (dirLabel : String)
    (images : List (PaddleBackend × GeminiBackend × Nat × Nat)) :
    (∀ (gb : GeminiBackend) (w h : Nat),
      process_image_gemini none gb w h = (.ok "", false)) ∧
    runPipeline none dirLabel images =
      runPipelinePaddleOnly dirLabel images ∧
    ((∀ img ∈ images, ∃ s,
        process_image_paddle img.1 img.2.2.1 img.2.2.2 = .ok s) →
      ∃ recs, runPipeline none dirLabel images = .ok recs) := by
  have heq : runPipeline none dirLabel images =
      runPipelinePaddleOnly dirLabel images := by
    unfold runPipeline runPipelinePaddleOnly
    rw [pipelineStep_no_key]
  refine ⟨fun gb w h => rfl, heq, ?_⟩
  intro hall
  rw [heq]
  exact paddleOnly_fold_ok dirLabel images [] hall

/-- Witness for C7 at a concrete single-image run: the PaddleOCR backend
recognizes AB12C, the Gemini backend would raise if called, the credential
is missing, and the run completes with one aggregated record. -/
theorem C7_missing_credential_witness :
    process_image_gemini none { generate := fun _ => .exc } 30 90 =
      (.ok "", false) ∧
    ∃ recs, runPipeline none "LOT7"
      [({ predict := fun _ => .ok (.newFormat ["AB12C"]),
          ocrLegacy := fun _ => .ok .empty },
        { generate := fun _ => .exc }, 30, 90)] = .ok recs := by
  have h := C7_missing_credential "LOT7"
    [({ predict := fun _ => .ok (.newFormat ["AB12C"]),
        ocrLegacy := fun _ => .ok .empty },
      { generate := fun _ => .exc }, 30, 90)]
  refine ⟨h.1 { generate := fun _ => .exc } 30 90, h.2.2 ?_⟩
  intro img hm
  rw [List.mem_singleton] at hm
  subst hm
  exact ⟨recTextsScan ["AB12C"], rfl⟩

/-- Helper: when a record with the observed key exists (and no earlier
record carries it), the scan increments that record's quantity in place and
leaves everything else untouched. -/
theorem addResult_found :
    ∀ (pre post : List (String × String × Nat)) (d c : String) (q : Nat),
      (∀ r ∈ pre, ¬(r.1 = d ∧ r.2.1 = c)) →
      addResult (pre ++ (d, c, q) :: post) d c =
        pre ++ (d, c, q + 1) :: post := by
  intro pre
  induction pre with
  | nil =>
    intro post d c q _
    show addResult ((d, c, q) :: post) d c = (d, c, q + 1) :: post
    unfold addResult
    rw [if_pos ⟨rfl, rfl⟩]
  | cons r rs ih =>
    intro post d c q hall
    show addResult (r :: (rs ++ (d, c, q) :: post)) d c =
      r :: (rs ++ (d, c, q + 1) :: post)
    unfold addResult
    rw [if_neg (hall r (List.mem_cons_self r rs)),
      ih post d c q (fun x hx => hall x (List.mem_cons_of_mem r hx))]

/-- Helper: when no record carries the observed key, the scan appends a
fresh record with quantity 1 after all existing records. -/
theorem addResult_not_found :
    ∀ (recs : List (String × String × Nat)) (d c : String),
      (∀ r ∈ recs, ¬(r.1 = d ∧ r.2.1 = c)) →
      addResult recs d c = recs ++ [(d, c, 1)] := by
  intro recs
  induction recs with
  | nil => intro d c _; rfl
  | cons r rs ih =>
    intro d c hall
    unfold addResult
    rw [if_neg (hall r (List.mem_cons_self r rs)),
      ih d c (fun x hx => hall x (List.mem_cons_of_mem r hx))]
    rfl

/-- C5: observing the absent code is a no-op; observing a present code
increments the quantity of the existing record with that key or appends a
new record with quantity 1 after all existing records; and after observing
(X, ABC12) three times and (X, ABC13) once, the exported list is exactly
(X, ABC12, 3) followed by (X, ABC13, 1), in first-seen order. -/
theorem C5_aggregator_observe (recs pre post : List (String × String × Nat))
    (d c : String) (q : Nat) :
    (observe recs d "" = recs) ∧
    (c ≠ "" → (∀ r ∈ pre, ¬(r.1 = d ∧ r.2.1 = c)) →
      observe (pre ++ (d, c, q) :: post) d c =
        pre ++ (d, c, q + 1) :: post) ∧
    (c ≠ "" → (∀ r ∈ recs, ¬(r.1 = d ∧ r.2.1 = c)) →
      observe recs d c = recs ++ [(d, c, 1)]) ∧
    (observe (observe (observe (observe [] "X" "ABC12") "X" "ABC12")
        "X" "ABC12") "X" "ABC13" =
      [("X", "ABC12", 3), ("X", "ABC13", 1)]) := by
  refine ⟨by simp [observe], ?_, ?_, by decide⟩
  · intro hc hall
    unfold observe
    rw [if_neg hc]
    exact addResult_found pre post d c q hall
  · intro hc hall
    unfold observe
    rw [if_neg hc]
    exact addResult_not_found recs d c hall

/-- Witness for C5 at concrete inputs: a no-op absent observation, an
append of a new key after an existing record, and the four-observation
scenario. -/
theorem C5_aggregator_observe_witness :
    (observe [("X", "ABC12", 3)] "X" "" = [("X", "ABC12", 3)]) ∧
    (observe [("X", "ABC12", 3)] "X" "ABC13" =
      [("X", "ABC12", 3), ("X", "ABC13", 1)]) ∧
    (observe (observe (observe (observe [] "X" "ABC12") "X" "ABC12")
        "X" "ABC12") "X" "ABC13" =
      [("X", "ABC12", 3), ("X", "ABC13", 1)]) := by
  have h := C5_aggregator_observe [("X", "ABC12", 3)] [] [] "X" "ABC13" 0
  exact ⟨h.1, h.2.2.1 (by decide) (by decide), h.2.2.2⟩

end ProductCodeOCR
